import Mathlib

/-!
Verification of the `data_cleaning` ETL core (src/ETL/transform.py) against its
specification.  The Python functions are shallowly embedded as executable Lean
definitions over `List Char` / `String`; machine floats are modelled as exact
decimals (`Dec`; float conversion is monotone and exact on the decimal
literals involved, so order and equality facts transfer); Python values that
may be non-strings are modelled by `PyVal`; code paths that would raise a
`TypeError` (`None * float`) are modelled with `Except`.

Embedding conventions (each noted where used):
* `\s` and `str.strip()` are modelled over ASCII whitespace;
* `\d` is modelled as the ASCII digits;
* `str.lower()` is modelled on ASCII plus the Vietnamese alphabet;
* `unicodedata` accent stripping (NFD, drop Mn) is modelled as a character map
  covering the Vietnamese alphabet (the repertoire of this dataset);
* `\w` is modelled as ASCII alphanumerics, `_`, and all non-ASCII characters
  (the non-ASCII characters reaching these patterns are Vietnamese letters);
* the handwritten scanners for the four salary regexes implement Python's
  leftmost search; for those particular patterns greedy matching never needs
  to backtrack into a character-class run (no class character can start the
  following alternative), so a scan without backtracking is equivalent.
-/

set_option maxRecDepth 4000

/-! ## Basic character and string utilities (Python `str` primitives) -/

/-- Exact nonnegative decimal `num / 10 ^ e`.  The Python code works with
`float`s; every number produced by the salary parser is such a decimal, and
float conversion/multiplication is exact or monotone on them, so order and
equality facts stated through `Dec` transfer to the floats.  Kernel-evaluable
(plain `Nat` arithmetic), unlike `ℚ` whose normalization uses `Nat.gcd`. -/
structure Dec where
  num : Nat
  e : Nat
  deriving Repr, DecidableEq

/-- Value of a `Dec` as a rational. -/
def Dec.toRat (d : Dec) : ℚ := (d.num : ℚ) / 10 ^ d.e

/-- Order on the represented values (`a.num / 10^a.e ≤ b.num / 10^b.e`). -/
def decLe (a b : Dec) : Prop := a.num * 10 ^ b.e ≤ b.num * 10 ^ a.e

instance (a b : Dec) : Decidable (decLe a b) := Nat.decLe _ _

/-- Multiply by `10 ^ k` (the unit multipliers are all powers of ten). -/
def Dec.scale (d : Dec) (k : Nat) : Dec := ⟨d.num * 10 ^ k, d.e⟩

/-- Python values as seen by the transform: a string or some non-string cell
(`None`, a number, `NaN` ...). -/
inductive PyVal where
  | vstr (s : String)
  | vnone
  | vnum (d : Dec)
  deriving Repr, DecidableEq

instance exceptDecEq {ε α : Type} [DecidableEq ε] [DecidableEq α] :
    DecidableEq (Except ε α) := fun x y =>
  match x, y with
  | .ok a, .ok b =>
    if h : a = b then .isTrue (by rw [h])
    else .isFalse (by intro hc; cases hc; exact h rfl)
  | .error a, .error b =>
    if h : a = b then .isTrue (by rw [h])
    else .isFalse (by intro hc; cases hc; exact h rfl)
  | .ok _, .error _ => .isFalse (by intro hc; cases hc)
  | .error _, .ok _ => .isFalse (by intro hc; cases hc)

/-- `\s` / `str.strip` whitespace (ASCII fragment of Python's whitespace). -/
def pyWs (c : Char) : Bool :=
  c == ' ' || c == '\t' || c == '\n' || c == '\r' || c == Char.ofNat 11 || c == Char.ofNat 12

/-- `\d` (ASCII fragment). -/
def pyDigit (c : Char) : Bool := c.isDigit

/-- Uppercase Vietnamese letters (precomposed forms plus Đ). -/
def viUpper : List Char :=
  "ÀÁẢÃẠĂẰẮẲẴẶÂẦẤẨẪẬÈÉẺẼẸÊỀẾỂỄỆÌÍỈĨỊÒÓỎÕỌÔỒỐỔỖỘƠỜỚỞỠỢÙÚỦŨỤƯỪỨỬỮỰỲÝỶỸỴĐ".data

/-- Their lowercase forms, position by position. -/
def viLower : List Char :=
  "àáảãạăằắẳẵặâầấẩẫậèéẻẽẹêềếểễệìíỉĩịòóỏõọôồốổỗộơờớởỡợùúủũụưừứửữựỳýỷỹỵđ".data

/-- `str.lower` on one character: ASCII plus the Vietnamese alphabet. -/
def pyLowerChar (c : Char) : Char :=
  if c.toNat < 128 then c.toLower
  else
    let i := viUpper.indexOf c
    viLower.getD i c

/-- Helper for `collapseWs`: the flag records whether the previous character
was whitespace (so a run contributes just one space). -/
def collapseWsAux : Bool → List Char → List Char
  | _, [] => []
  | inWs, c :: t =>
    if pyWs c then
      if inWs then collapseWsAux true t else ' ' :: collapseWsAux true t
    else c :: collapseWsAux false t

/-- `re.sub(r"\s+", " ", ·)`: collapse each whitespace run to one space. -/
def collapseWs (l : List Char) : List Char := collapseWsAux false l

/-- `str.strip()`. -/
def pyStrip (l : List Char) : List Char :=
  ((l.dropWhile pyWs).reverse.dropWhile pyWs).reverse

/-- Substring test, `needle in hay` on Python strings. -/
def listContains (hay needle : List Char) : Bool :=
  match hay with
  | [] => needle.isEmpty
  | _ :: t => needle.isPrefixOf hay || listContains t needle

/-- Prefix match: consume the literal `s` (case-sensitively), return the rest. -/
def matchPfx (s : String) (l : List Char) : Option (List Char) :=
  if s.data.isPrefixOf l then some (l.drop s.data.length) else none

/-! ## Salary parsing (`detect_currency`, `unit_multiplier`, `_num`,
`parse_salary`) -/

/-- `detect_currency` (the argument is already lowercased in `parse_salary`;
the source lowercases again, which we mirror). -/
def detectCurrency (l : List Char) : String :=
  let s := l.map pyLowerChar
  if listContains s "usd".data || listContains s "$".data then "USD" else "VND"

/-- `unit_multiplier`.  Every multiplier in the source is a power of ten
(1, 1000.0, 1_000_000.0, 1_000_000_000.0); we return its base-10 exponent so
that scaling stays in `Nat` arithmetic (see `Dec.scale`). -/
def unitMult (tail : List Char) (currency : String) : Nat :=
  let s := tail.map pyLowerChar
  if currency == "USD" then
    if listContains s "k".data || listContains s "nghìn".data then 3 else 0
  else if listContains s "tỷ".data || listContains s "ty".data then 9
  else if listContains s "triệu".data || listContains s "trieu".data
      || listContains s "tr".data then 6
  else if listContains s "nghìn".data || listContains s "nghin".data
      || listContains s "k".data then 3
  else 0

/-- Numeric value of a digit run. -/
def digitsToNat (l : List Char) : Nat :=
  l.foldl (fun n c => n * 10 + (c.toNat - 48)) 0

/-- Value of the first decimal number: integer digits `ds`, then an optional
`.digits` fraction read from `rest` (the `(?:\.\d+)?` group of `_num`):
the decimal `int.frac` is `(int * 10^|frac| + frac) / 10^|frac|`. -/
def numVal (ds rest : List Char) : Dec :=
  match rest with
  | p :: y :: _ =>
    if p == '.' && pyDigit y then
      let fs := (rest.drop 1).takeWhile pyDigit
      ⟨digitsToNat ds * 10 ^ fs.length + digitsToNat fs, fs.length⟩
    else ⟨digitsToNat ds, 0⟩
  | _ => ⟨digitsToNat ds, 0⟩

/-- `re.search(r"(\d+(?:\.\d+)?)", ·)` + `float`: first number in the token. -/
def numSearch : List Char → Option Dec
  | [] => none
  | c :: xs =>
    if pyDigit c then
      some (numVal (c :: xs.takeWhile pyDigit) (xs.dropWhile pyDigit))
    else numSearch xs

/-- `_num`: replace `,` by `.`, then take the first number; `None` if there is
no digit. -/
def pyNum (tok : List Char) : Option Dec :=
  numSearch (tok.map fun c => if c == ',' then '.' else c)

/-- The character class `[\d\.,]` of the salary number patterns. -/
def numClass (c : Char) : Bool := pyDigit c || c == '.' || c == ','

/-- The range separators `(?:-|–|—|to|đến|~)`, tried in the source's order. -/
def rangeSep (l : List Char) : Option (List Char) :=
  (matchPfx "-" l).orElse fun _ =>
  (matchPfx "–" l).orElse fun _ =>
  (matchPfx "—" l).orElse fun _ =>
  (matchPfx "to" l).orElse fun _ =>
  (matchPfx "đến" l).orElse fun _ =>
  matchPfx "~" l

/-- Match `(\d[\d\.,]*)\s*(.*)$` at the current position: the captured number
token and the trailing unit text. -/
def numTailAt : List Char → Option (List Char × List Char)
  | [] => none
  | d :: rest =>
    if pyDigit d then
      some (d :: rest.takeWhile numClass, (rest.dropWhile numClass).dropWhile pyWs)
    else none

/-- Match the whole range pattern
`(\d[\d\.,]*)\s*(?:-|–|—|to|đến|~)\s*(\d[\d\.,]*)\s*(.*)$` at the current
position, returning the two number tokens and the trailing unit text. -/
def rangeAt : List Char → Option (List Char × List Char × List Char)
  | [] => none
  | c :: rest =>
    if pyDigit c then
      let r1 := rest.takeWhile numClass
      let rest2 := (rest.dropWhile numClass).dropWhile pyWs
      match rangeSep rest2 with
      | none => none
      | some rest3 =>
        match numTailAt (rest3.dropWhile pyWs) with
        | none => none
        | some (hi, tail) => some (c :: r1, hi, tail)
    else none

/-- `re.search` for the range pattern: leftmost position at which it matches. -/
def rangeSearch : List Char → Option (List Char × List Char × List Char)
  | [] => none
  | c :: xs =>
    match rangeAt (c :: xs) with
    | some r => some r
    | none => rangeSearch xs

/-- Match `(lead)\s*(\d[\d\.,]*)\s*(.*)$` at the current position for the first
lead alternative that lets the rest of the pattern succeed. -/
def leadNumAt : List String → List Char → Option (List Char × List Char)
  | [], _ => none
  | s :: ss, l =>
    match matchPfx s l with
    | some rest =>
      match numTailAt (rest.dropWhile pyWs) with
      | some r => some r
      | none => leadNumAt ss l
    | none => leadNumAt ss l

/-- Leftmost search for a lead-plus-number pattern. -/
def leadSearch (leads : List String) : List Char → Option (List Char × List Char)
  | [] => none
  | c :: xs =>
    match leadNumAt leads (c :: xs) with
    | some r => some r
    | none => leadSearch leads xs

/-- The ceiling leads `(tới|đến|up to|<=)`. -/
def ceilLeads : List String := ["tới", "đến", "up to", "<="]

/-- The floor leads `(trên|>=|from|từ)`. -/
def floorLeads : List String := ["trên", ">=", "from", "từ"]

/-- Leftmost search for the single-number pattern `(\d[\d\.,]*)\s*(.*)$`. -/
def pointSearch : List Char → Option (List Char × List Char)
  | [] => none
  | c :: xs =>
    match numTailAt (c :: xs) with
    | some r => some r
    | none => pointSearch xs

/-- `re.sub(r"\s+", " ", text.strip()).lower()`. -/
def sNorm (text : String) : List Char :=
  (collapseWs (pyStrip text.data)).map pyLowerChar

/-- The result quadruple `(min, max, currency, note)`. -/
abbrev SalaryRes := Option Dec × Option Dec × String × String

/-- `parse_salary`.  `.error ()` marks the `TypeError` a `None * float`
product would raise (`_num` returning `None` inside a numeric branch). -/
def parseSalary (v : PyVal) : Except Unit SalaryRes :=
  match v with
  | .vstr text =>
    if (pyStrip text.data).isEmpty then .ok (none, none, "VND", "empty")
    else
      let s := sNorm text
      if listContains s "thoả thuận".data || listContains s "thỏa thuận".data
          || listContains s "negotiable".data then
        .ok (none, none, "VND", "negotiable")
      else
        let cur := detectCurrency s
        match rangeSearch s with
        | some (lo, hi, tail) =>
          match pyNum lo, pyNum hi with
          | some a, some b =>
            .ok (some (a.scale (unitMult tail cur)), some (b.scale (unitMult tail cur)), cur, "range")
          | _, _ => .error ()
        | none =>
          match leadSearch ceilLeads s with
          | some (x, tail) =>
            match pyNum x with
            | some a => .ok (none, some (a.scale (unitMult tail cur)), cur, "ceiling")
            | none => .error ()
          | none =>
            match leadSearch floorLeads s with
            | some (x, tail) =>
              match pyNum x with
              | some a => .ok (some (a.scale (unitMult tail cur)), none, cur, "floor")
              | none => .error ()
            | none =>
              match pointSearch s with
              | some (x, tail) =>
                match pyNum x with
                | some a =>
                  .ok (some (a.scale (unitMult tail cur)), some (a.scale (unitMult tail cur)), cur, "point")
                | none => .error ()
              | none => .ok (none, none, cur, "unparsed")
  | _ => .ok (none, none, "VND", "empty")

example : parseSalary (.vstr "10 - 20 triệu")
    = .ok (some ⟨10000000, 0⟩, some ⟨20000000, 0⟩, "VND", "range") := by decide
example : parseSalary (.vstr "từ 15 triệu")
    = .ok (some ⟨15000000, 0⟩, none, "VND", "floor") := by decide
example : parseSalary (.vstr "đến 30 triệu")
    = .ok (none, some ⟨30000000, 0⟩, "VND", "ceiling") := by decide
example : parseSalary (.vstr "2000 USD")
    = .ok (some ⟨2000, 0⟩, some ⟨2000, 0⟩, "USD", "point") := by decide
example : parseSalary (.vstr "15k USD")
    = .ok (some ⟨15000, 0⟩, some ⟨15000, 0⟩, "USD", "point") := by decide
example : parseSalary (.vstr "Thoả thuận")
    = .ok (none, none, "VND", "negotiable") := by decide
example : parseSalary (.vstr "")
    = .ok (none, none, "VND", "empty") := by decide

/-! ## Salary lemmas -/

/-- A token that starts with a digit has a number (`_num` cannot return
`None` on the captures of the salary patterns). -/
theorem pyNum_isSome_of_digit (c : Char) (r : List Char) (hc : pyDigit c = true) :
    ∃ d, pyNum (c :: r) = some d := by
  have hcc : (c == ',') = false := by
    cases heq : c == ',' with
    | false => rfl
    | true => simp only [beq_iff_eq] at heq; subst heq; simp [pyDigit, Char.isDigit] at hc
  simp [pyNum, numSearch, hcc, hc]

/-- The number capture of `numTailAt` starts with a digit. -/
theorem numTailAt_shape (l x tail : List Char) (h : numTailAt l = some (x, tail)) :
    ∃ c r, x = c :: r ∧ pyDigit c = true := by
  match l with
  | [] => simp [numTailAt] at h
  | d :: rest =>
    simp only [numTailAt] at h
    split at h
    · rename_i hd
      simp only [Option.some.injEq, Prod.mk.injEq] at h
      exact ⟨d, _, h.1.symm, hd⟩
    · simp at h

/-- The number captures of the range pattern start with digits. -/
theorem rangeAt_shape (l lo hi tail : List Char)
    (h : rangeAt l = some (lo, hi, tail)) :
    (∃ c r, lo = c :: r ∧ pyDigit c = true) ∧ (∃ c r, hi = c :: r ∧ pyDigit c = true) := by
  match l with
  | [] => simp [rangeAt] at h
  | c :: rest =>
    simp only [rangeAt] at h
    split at h
    · rename_i hdig
      split at h
      · simp at h
      · split at h
        · simp at h
        · rename_i hi' tail' hnum
          simp only [Option.some.injEq, Prod.mk.injEq] at h
          obtain ⟨hlo, hhi, ht⟩ := h
          refine ⟨⟨c, _, hlo.symm, hdig⟩, ?_⟩
          obtain ⟨d, r, hx, hd⟩ := numTailAt_shape _ _ _ hnum
          exact ⟨d, r, hhi.symm.trans hx, hd⟩
    · simp at h

/-- `rangeSearch` only returns captures that start with digits. -/
theorem rangeSearch_shape (l lo hi tail : List Char)
    (h : rangeSearch l = some (lo, hi, tail)) :
    (∃ c r, lo = c :: r ∧ pyDigit c = true) ∧ (∃ c r, hi = c :: r ∧ pyDigit c = true) := by
  induction l with
  | nil => simp [rangeSearch] at h
  | cons c xs ih =>
    simp only [rangeSearch] at h
    split at h
    · rename_i r hat
      cases h
      exact rangeAt_shape _ _ _ _ hat
    · exact ih h

/-- `leadNumAt` only returns captures that start with digits. -/
theorem leadNumAt_shape (leads : List String) (l x tail : List Char)
    (h : leadNumAt leads l = some (x, tail)) :
    ∃ c r, x = c :: r ∧ pyDigit c = true := by
  induction leads with
  | nil => simp [leadNumAt] at h
  | cons s ss ih =>
    simp only [leadNumAt] at h
    split at h
    · split at h
      · rename_i r hat
        cases h
        exact numTailAt_shape _ _ _ hat
      · exact ih h
    · exact ih h

/-- `leadSearch` only returns captures that start with digits. -/
theorem leadSearch_shape (leads : List String) (l x tail : List Char)
    (h : leadSearch leads l = some (x, tail)) :
    ∃ c r, x = c :: r ∧ pyDigit c = true := by
  induction l with
  | nil => simp [leadSearch] at h
  | cons c xs ih =>
    simp only [leadSearch] at h
    split at h
    · rename_i r hat
      cases h
      exact leadNumAt_shape _ _ _ _ hat
    · exact ih h

/-- `pointSearch` only returns captures that start with digits. -/
theorem pointSearch_shape (l x tail : List Char)
    (h : pointSearch l = some (x, tail)) :
    ∃ c r, x = c :: r ∧ pyDigit c = true := by
  induction l with
  | nil => simp [pointSearch] at h
  | cons c xs ih =>
    simp only [pointSearch] at h
    split at h
    · rename_i r hat
      cases h
      exact numTailAt_shape _ _ _ hat
    · exact ih h

/-- `parse_salary` never raises: every branch that multiplies `_num(tok)` by
the unit multiplier does so on a capture that starts with a digit, so `_num`
never returns `None` there. -/
theorem parseSalary_total (v : PyVal) : ∃ r, parseSalary v = .ok r := by
  match v with
  | .vnone => exact ⟨_, rfl⟩
  | .vnum d => exact ⟨_, rfl⟩
  | .vstr text =>
    simp only [parseSalary]
    split
    · exact ⟨_, rfl⟩
    · split
      · exact ⟨_, rfl⟩
      · split
        · rename_i lo hi tail hr
          obtain ⟨⟨c1, r1, hlo, hc1⟩, ⟨c2, r2, hhi, hc2⟩⟩ := rangeSearch_shape _ _ _ _ hr
          obtain ⟨a, ha⟩ := pyNum_isSome_of_digit c1 r1 hc1
          obtain ⟨b, hb⟩ := pyNum_isSome_of_digit c2 r2 hc2
          rw [hlo, hhi, ha, hb]
          exact ⟨_, rfl⟩
        · split
          · rename_i x tail hl
            obtain ⟨c1, r1, hx, hc1⟩ := leadSearch_shape _ _ _ _ hl
            obtain ⟨a, ha⟩ := pyNum_isSome_of_digit c1 r1 hc1
            rw [hx, ha]
            exact ⟨_, rfl⟩
          · split
            · rename_i x tail hl
              obtain ⟨c1, r1, hx, hc1⟩ := leadSearch_shape _ _ _ _ hl
              obtain ⟨a, ha⟩ := pyNum_isSome_of_digit c1 r1 hc1
              rw [hx, ha]
              exact ⟨_, rfl⟩
            · split
              · rename_i x tail hl
                obtain ⟨c1, r1, hx, hc1⟩ := pointSearch_shape _ _ _ hl
                obtain ⟨a, ha⟩ := pyNum_isSome_of_digit c1 r1 hc1
                rw [hx, ha]
                exact ⟨_, rfl⟩
              · exact ⟨_, rfl⟩

/-- Scaling by a power of ten is monotone on decimal values. -/
theorem decLe_scale (a b : Dec) (k : Nat) (h : decLe a b) :
    decLe (a.scale k) (b.scale k) := by
  simp only [decLe, Dec.scale] at h ⊢
  calc a.num * 10 ^ k * 10 ^ b.e = a.num * 10 ^ b.e * 10 ^ k := by ring
    _ ≤ b.num * 10 ^ a.e * 10 ^ k := Nat.mul_le_mul_right _ h
    _ = b.num * 10 ^ k * 10 ^ a.e := by ring

/-- C9: for every non-string input value (`None`, a number, ...),
`parse_salary` returns the same sentinel as for blank text:
`(None, None, "VND", "empty")`. -/
theorem c9_nonstring_empty (v : PyVal) (h : ∀ s, v ≠ .vstr s) :
    parseSalary v = .ok (none, none, "VND", "empty") := by
  match v with
  | .vstr s => exact absurd rfl (h s)
  | .vnone => rfl
  | .vnum d => rfl

/-- Witness for C9 at the concrete non-string input `None`. -/
theorem c9_nonstring_empty_witness :
    parseSalary .vnone = .ok (none, none, "VND", "empty") :=
  c9_nonstring_empty .vnone (fun _ h => PyVal.noConfusion h)

/-- C2: the note returned by `parse_salary` determines which of min/max are
populated: `range` and `point` have both (point sets them equal), `floor`
only min, `ceiling` only max, and `negotiable`/`empty`/`unparsed` neither. -/
theorem c2_note_determines_nullness (text : String) (mn mx : Option Dec)
    (cur note : String) (h : parseSalary (.vstr text) = .ok (mn, mx, cur, note)) :
    (note = "range" → mn.isSome = true ∧ mx.isSome = true) ∧
    (note = "point" → ∃ v, mn = some v ∧ mx = some v) ∧
    (note = "floor" → mn.isSome = true ∧ mx = none) ∧
    (note = "ceiling" → mn = none ∧ mx.isSome = true) ∧
    ((note = "negotiable" ∨ note = "empty" ∨ note = "unparsed") →
      mn = none ∧ mx = none) := by
  simp only [parseSalary] at h
  split at h
  · simp only [Except.ok.injEq, Prod.mk.injEq] at h
    obtain ⟨h1, h2, h3, h4⟩ := h
    subst h1; subst h2; subst h4
    refine ⟨?_, ?_, ?_, ?_, ?_⟩ <;> intro hx <;>
      first
        | exact absurd hx (by decide)
        | (rcases hx with hx | hx | hx <;> first | exact absurd hx (by decide) | exact ⟨rfl, rfl⟩)
  · split at h
    · simp only [Except.ok.injEq, Prod.mk.injEq] at h
      obtain ⟨h1, h2, h3, h4⟩ := h
      subst h1; subst h2; subst h4
      refine ⟨?_, ?_, ?_, ?_, ?_⟩ <;> intro hx <;>
        first
          | exact absurd hx (by decide)
          | (rcases hx with hx | hx | hx <;> first | exact absurd hx (by decide) | exact ⟨rfl, rfl⟩)
    · split at h
      · -- range branch
        split at h
        · simp only [Except.ok.injEq, Prod.mk.injEq] at h
          obtain ⟨h1, h2, h3, h4⟩ := h
          subst h1; subst h2; subst h4
          refine ⟨?_, ?_, ?_, ?_, ?_⟩ <;> intro hx <;>
            first
              | exact absurd hx (by decide)
              | exact ⟨rfl, rfl⟩
        · exact absurd h (by simp)
      · split at h
        · -- ceiling branch
          split at h
          · simp only [Except.ok.injEq, Prod.mk.injEq] at h
            obtain ⟨h1, h2, h3, h4⟩ := h
            subst h1; subst h2; subst h4
            refine ⟨?_, ?_, ?_, ?_, ?_⟩ <;> intro hx <;>
              first
                | exact absurd hx (by decide)
                | exact ⟨rfl, rfl⟩
          · exact absurd h (by simp)
        · split at h
          · -- floor branch
            split at h
            · simp only [Except.ok.injEq, Prod.mk.injEq] at h
              obtain ⟨h1, h2, h3, h4⟩ := h
              subst h1; subst h2; subst h4
              refine ⟨?_, ?_, ?_, ?_, ?_⟩ <;> intro hx <;>
                first
                  | exact absurd hx (by decide)
                  | exact ⟨rfl, rfl⟩
            · exact absurd h (by simp)
          · split at h
            · -- point branch
              split at h
              · simp only [Except.ok.injEq, Prod.mk.injEq] at h
                obtain ⟨h1, h2, h3, h4⟩ := h
                subst h1; subst h2; subst h4
                refine ⟨?_, ?_, ?_, ?_, ?_⟩ <;> intro hx <;>
                  first
                    | exact absurd hx (by decide)
                    | exact ⟨_, rfl, rfl⟩
              · exact absurd h (by simp)
            · simp only [Except.ok.injEq, Prod.mk.injEq] at h
              obtain ⟨h1, h2, h3, h4⟩ := h
              subst h1; subst h2; subst h4
              refine ⟨?_, ?_, ?_, ?_, ?_⟩ <;> intro hx <;>
                first
                  | exact absurd hx (by decide)
                  | (rcases hx with hx | hx | hx <;> first | exact absurd hx (by decide) | exact ⟨rfl, rfl⟩)

/-- Witness for C2 on the concrete range input `"10 - 20 triệu"`. -/
theorem c2_note_determines_nullness_witness :
    (some ⟨10000000, 0⟩ : Option Dec).isSome = true ∧
      (some ⟨20000000, 0⟩ : Option Dec).isSome = true :=
  (c2_note_determines_nullness "10 - 20 triệu" (some ⟨10000000, 0⟩)
    (some ⟨20000000, 0⟩) "VND" "range" (by decide)).1 rfl

/-- C1 counterexample: the blank string matches none of the
negotiable/range/ceiling/floor/single-number patterns, yet `parse_salary`
returns note `"empty"`, not `(None, None, currency_guess, "unparsed")`. -/
theorem c1_counterexample :
    (listContains (sNorm "") "thoả thuận".data = false ∧
      listContains (sNorm "") "thỏa thuận".data = false ∧
      listContains (sNorm "") "negotiable".data = false) ∧
    rangeSearch (sNorm "") = none ∧
    leadSearch ceilLeads (sNorm "") = none ∧
    leadSearch floorLeads (sNorm "") = none ∧
    pointSearch (sNorm "") = none ∧
    parseSalary (.vstr "") = .ok (none, none, "VND", "empty") ∧
    parseSalary (.vstr "") ≠ .ok (none, none, detectCurrency (sNorm ""), "unparsed") := by
  decide

/-- C1 (amended): `parse_salary` returns a 4-tuple and never raises on any
input value; and every NON-BLANK string whose normalized form contains no
negotiation marker and matches none of the range/ceiling/floor/single-number
patterns yields `(None, None, currency_guess, "unparsed")`.  (The amendment
adds "non-blank": blank text matches none of the patterns but returns note
`"empty"`.) -/
theorem c1_total_and_unparsed :
    (∀ v : PyVal, ∃ r, parseSalary v = .ok r) ∧
    (∀ text : String, (pyStrip text.data).isEmpty = false →
      listContains (sNorm text) "thoả thuận".data = false →
      listContains (sNorm text) "thỏa thuận".data = false →
      listContains (sNorm text) "negotiable".data = false →
      rangeSearch (sNorm text) = none →
      leadSearch ceilLeads (sNorm text) = none →
      leadSearch floorLeads (sNorm text) = none →
      pointSearch (sNorm text) = none →
      parseSalary (.vstr text) = .ok (none, none, detectCurrency (sNorm text), "unparsed")) := by
  refine ⟨parseSalary_total, ?_⟩
  intro text hblank h1 h2 h3 hr hc hf hp
  simp only [parseSalary, hblank, h1, h2, h3, hr, hc, hf, hp]
  rfl

/-- Witness for C1 at the concrete unparsable input `"lương hấp dẫn"`. -/
theorem c1_total_and_unparsed_witness :
    (∃ r, parseSalary (.vstr "lương hấp dẫn") = .ok r) ∧
    parseSalary (.vstr "lương hấp dẫn") = .ok (none, none, "VND", "unparsed") := by
  refine ⟨c1_total_and_unparsed.1 _, ?_⟩
  have h := c1_total_and_unparsed.2 "lương hấp dẫn" (by decide) (by decide)
    (by decide) (by decide) (by decide) (by decide) (by decide) (by decide)
  exact h.trans (by decide)

/-- C3 counterexample: `"20 - 10 triệu"` parses with note `"range"` but
`min_salary > max_salary` (the code keeps the textual order of the two
numbers and never swaps or checks them). -/
theorem c3_counterexample :
    parseSalary (.vstr "20 - 10 triệu")
      = .ok (some ⟨20000000, 0⟩, some ⟨10000000, 0⟩, "VND", "range") ∧
    ¬ decLe ⟨20000000, 0⟩ ⟨10000000, 0⟩ := by
  decide

/-- C3 (amended): for a salary string parsed with note `"range"`, `min ≤ max`
holds whenever the first number captured by the range pattern is at most the
second (both are scaled by the same nonnegative unit multiplier; the claim's
unconditional `min ≤ max` fails, see the counterexample). -/
theorem c3_range_min_le_max (text : String) (mn mx : Dec) (cur : String)
    (h : parseSalary (.vstr text) = .ok (some mn, some mx, cur, "range"))
    (lo hi tail : List Char) (hr : rangeSearch (sNorm text) = some (lo, hi, tail))
    (a b : Dec) (ha : pyNum lo = some a) (hb : pyNum hi = some b)
    (hab : decLe a b) : decLe mn mx := by
  simp only [parseSalary] at h
  split at h
  · simp at h
  · split at h
    · simp at h
    · split at h
      · rename_i lo' hi' tail' hr'
        rw [hr] at hr'
        injection hr' with hr''
        simp only [Prod.mk.injEq] at hr''
        obtain ⟨hlo, hhi, ht⟩ := hr''
        subst hlo; subst hhi; subst ht
        split at h
        · rename_i a' b' ha' hb'
          rw [ha] at ha'; rw [hb] at hb'
          injection ha' with ha''; injection hb' with hb''
          subst ha''; subst hb''
          simp only [Except.ok.injEq, Prod.mk.injEq, Option.some.injEq] at h
          obtain ⟨h1, h2, h3, h4⟩ := h
          subst h1; subst h2
          exact decLe_scale a b _ hab
        · exact absurd h (by simp)
      · split at h
        · split at h
          · simp only [Except.ok.injEq, Prod.mk.injEq] at h
            exact absurd h.2.2.2 (by decide)
          · exact absurd h (by simp)
        · split at h
          · split at h
            · simp only [Except.ok.injEq, Prod.mk.injEq] at h
              exact absurd h.2.2.2 (by decide)
            · exact absurd h (by simp)
          · split at h
            · split at h
              · simp only [Except.ok.injEq, Prod.mk.injEq] at h
                exact absurd h.2.2.2 (by decide)
              · exact absurd h (by simp)
            · simp only [Except.ok.injEq, Prod.mk.injEq] at h
              exact absurd h.2.2.2 (by decide)

/-- Witness for C3 on `"10 - 20 triệu"` (first number ≤ second number). -/
theorem c3_range_min_le_max_witness :
    decLe ⟨10000000, 0⟩ ⟨20000000, 0⟩ :=
  c3_range_min_le_max "10 - 20 triệu" ⟨10000000, 0⟩ ⟨20000000, 0⟩ "VND"
    (by decide) "10".data "20".data "triệu".data (by decide)
    ⟨10, 0⟩ ⟨20, 0⟩ (by decide) (by decide) (by decide)

/-! ## A small backtracking regex engine

Only used for truth of `pattern.search(text)` (no captures), so the search
order is irrelevant: the matcher below is complete for match existence (any
Python match can be turned into one where every `*` iteration consumes at
least one character, which is the only restriction imposed here). -/

/-- `\w` (see the embedding conventions in the header). -/
def pyWord (c : Char) : Bool := c.isAlphanum || c == '_' || decide (127 < c.toNat)

/-- Regular expressions over the constructs the rule tables use. -/
inductive RE where
  | nul
  | eps
  | chr (c : Char)
  | cls (p : Char → Bool)
  | cat (a b : RE)
  | alt (a b : RE)
  | opt (a : RE)
  | star (a : RE)
  | wb

/-- Is the option a word character (`none` = text edge = non-word)? -/
def isWordO : Option Char → Bool
  | none => false
  | some c => pyWord c

/-- `\b` at a point: the previous character and the next differ in wordness. -/
def wordBoundary (prev : Option Char) (l : List Char) : Bool :=
  isWordO prev != isWordO l.head?

/-- CPS backtracking matcher; `prev` is the character before the current
point (for `\b`), `k` the continuation.  Fuel only forces termination: every
`star` unrolling must consume at least one character. -/
def matchR : Nat → RE → Option Char → List Char → (Option Char → List Char → Bool) → Bool
  | 0, _, _, _, _ => false
  | f + 1, re, prev, l, k =>
    match re with
    | .nul => false
    | .eps => k prev l
    | .chr c =>
      match l with
      | [] => false
      | x :: xs => x == c && k (some x) xs
    | .cls p =>
      match l with
      | [] => false
      | x :: xs => p x && k (some x) xs
    | .cat a b => matchR f a prev l fun p2 l2 => matchR f b p2 l2 k
    | .alt a b => matchR f a prev l k || matchR f b prev l k
    | .opt a => matchR f a prev l k || k prev l
    | .wb => wordBoundary prev l && k prev l
    | .star a =>
      k prev l ||
        matchR f a prev l fun p2 l2 =>
          decide (l2.length < l.length) && matchR f (.star a) p2 l2 k

/-- Structural size, used to pick a sufficient fuel. -/
def reSize : RE → Nat
  | .nul => 1
  | .eps => 1
  | .chr _ => 1
  | .cls _ => 1
  | .wb => 1
  | .cat a b => reSize a + reSize b + 1
  | .alt a b => reSize a + reSize b + 1
  | .opt a => reSize a + 1
  | .star a => reSize a + 1

/-- Does `r` match a prefix of `l` (any length), given left context `prev`? -/
def matchHere (r : RE) (prev : Option Char) (l : List Char) : Bool :=
  matchR ((reSize r + 2) * (l.length + 2)) r prev l fun _ _ => true

/-- `re.search` truth value: does `r` match anywhere at or after this point? -/
def reSearchFrom (r : RE) : Option Char → List Char → Bool
  | prev, [] => matchHere r prev []
  | prev, x :: xs => matchHere r prev (x :: xs) || reSearchFrom r (some x) xs

/-- Truth of `re.search(r, l)`. -/
def reSearch (r : RE) (l : List Char) : Bool := reSearchFrom r none l

/-- Concatenation of a pattern list. -/
def reCat (l : List RE) : RE := l.foldr RE.cat RE.eps

/-- Ordered alternation of a pattern list. -/
def reAlts (l : List RE) : RE := l.foldr RE.alt RE.nul

/-- A literal string. -/
def lit (s : String) : RE := reCat (s.data.map RE.chr)

/-- `\b s \b`, the dominant pattern shape of the rule tables. -/
def wpat (s : String) : RE := RE.cat RE.wb (RE.cat (lit s) RE.wb)

/-- `\s*`. -/
def ws0 : RE := RE.star (RE.cls pyWs)

/-- `\d+`. -/
def digits1 : RE := RE.cat (RE.cls pyDigit) (RE.star (RE.cls pyDigit))

example : reSearch (wpat "senior") "a senior dev".data = true := by decide
example : reSearch (wpat "senior") "seniority".data = false := by decide
example : reSearch (RE.cat (lit "help") (RE.cat (RE.opt (RE.chr ' ')) (lit "desk")))
    "it helpdesk agent".data = true := by decide

/-! ## Address splitting (`VIETNAM_PROVINCES`, `CANON`, helpers,
`split_address_all_pairs`, `split_address_joined`, `format_pairs`) -/

/-- Canonical list of Vietnam provinces/cities (official names). -/
def VIETNAM_PROVINCES : List String := [
  "An Giang", "Bà Rịa - Vũng Tàu", "Bắc Giang", "Bắc Kạn", "Bạc Liêu",
  "Bắc Ninh", "Bến Tre", "Bình Định", "Bình Dương", "Bình Phước",
  "Bình Thuận", "Cà Mau", "Cần Thơ", "Cao Bằng", "Đà Nẵng",
  "Đắk Lắk", "Đắk Nông", "Điện Biên", "Đồng Nai", "Đồng Tháp",
  "Gia Lai", "Hà Giang", "Hà Nam", "Hà Nội", "Hà Tĩnh",
  "Hải Dương", "Hải Phòng", "Hậu Giang", "Hòa Bình", "Hưng Yên",
  "Khánh Hòa", "Kiên Giang", "Kon Tum", "Lai Châu", "Lâm Đồng",
  "Lạng Sơn", "Lào Cai", "Long An", "Nam Định", "Nghệ An",
  "Ninh Bình", "Ninh Thuận", "Phú Thọ", "Phú Yên", "Quảng Bình",
  "Quảng Nam", "Quảng Ngãi", "Quảng Ninh", "Quảng Trị", "Sóc Trăng",
  "Sơn La", "Tây Ninh", "Thái Bình", "Thái Nguyên", "Thanh Hóa",
  "Thừa Thiên Huế", "Tiền Giang", "TP. Hồ Chí Minh", "Trà Vinh", "Tuyên Quang",
  "Vĩnh Long", "Vĩnh Phúc", "Yên Bái"]

/-- The extra aliases added by `CANON.update`. -/
def CANON_ALIASES : List (String × String) := [
  ("hcm", "TP. Hồ Chí Minh"), ("tp.hcm", "TP. Hồ Chí Minh"), ("tphcm", "TP. Hồ Chí Minh"),
  ("sai gon", "TP. Hồ Chí Minh"), ("sài gòn", "TP. Hồ Chí Minh"),
  ("ho chi minh", "TP. Hồ Chí Minh"), ("thanh pho ho chi minh", "TP. Hồ Chí Minh"),
  ("hn", "Hà Nội"), ("ha noi", "Hà Nội"), ("hanoi", "Hà Nội"),
  ("thanh pho ha noi", "Hà Nội"),
  ("da nang", "Đà Nẵng"), ("thanh pho da nang", "Đà Nẵng"),
  ("hai phong", "Hải Phòng"), ("thanh pho hai phong", "Hải Phòng"),
  ("can tho", "Cần Thơ"), ("thanh pho can tho", "Cần Thơ")]

/-- The `CANON` dict: lowered official names, then the aliases.  All keys are
distinct (the aliases are unaccented or abbreviated, the lowered official
names are not), so association-list lookup agrees with the Python dict. -/
def CANON : List (String × String) :=
  VIETNAM_PROVINCES.map (fun p => (String.mk (p.data.map pyLowerChar), p)) ++ CANON_ALIASES

/-- `_norm`: strip, lowercase, collapse whitespace. -/
def normStr (s : String) : String :=
  String.mk (collapseWs ((pyStrip s.data).map pyLowerChar))

/-- Case-insensitive prefix match (`re.I`): consume `p`, return the rest. -/
def matchPfxCIAux : List Char → List Char → Option (List Char)
  | [], l => some l
  | _ :: _, [] => none
  | p :: ps, c :: cs =>
    if pyLowerChar c == pyLowerChar p then matchPfxCIAux ps cs else none

/-- The alternatives of `(tp\.?|thành phố|thanh pho|tỉnh|tinh)`; the greedy
`\.?` of `tp\.?` is expanded into trying `tp.` before `tp`. -/
def adminAlts : List String := ["tp.", "tp", "thành phố", "thanh pho", "tỉnh", "tinh"]

/-- Match `(alts)\s+` at the start (case-insensitively), returning the text
after the matched region; alternatives are tried in order with backtracking
(an alternative whose `\s+` fails is abandoned for the next). -/
def adminAfter : List String → List Char → Option (List Char)
  | [], _ => none
  | s :: ss, l =>
    match matchPfxCIAux s.data l with
    | some (c :: rest) =>
      if pyWs c then some (rest.dropWhile pyWs) else adminAfter ss l
    | some [] => adminAfter ss l
    | none => adminAfter ss l

/-- `_strip_admin_prefix`: the pattern is anchored (`^`), and its leading
`\s*` is vacuous because the argument was just stripped. -/
def stripAdminL (l : List Char) : List Char :=
  let t := pyStrip l
  match adminAfter adminAlts t with
  | some rest => rest
  | none => t

/-- `_strip_admin_prefix` on strings. -/
def stripAdmin (raw : String) : String := String.mk (stripAdminL raw.data)

/-- `_base_name`. -/
def baseName (raw : String) : String := normStr (stripAdmin raw)

/-- `_canon_city` (the `str | None` input is only ever a non-`None` token in
`split_address_all_pairs`; `if not raw` is the empty-string test). -/
def canonCity (raw : String) : Option String :=
  if raw.data.isEmpty then none
  else
    match List.lookup (normStr raw) CANON with
    | some v => some v
    | none =>
      match List.lookup (baseName raw) CANON with
      | some v => some v
      | none =>
        let np := stripAdmin raw
        some (if np.data.isEmpty then String.mk (pyStrip raw.data) else np)

/-- `_canon_district`. -/
def canonDistrict (raw : String) : Option String :=
  if raw.data.isEmpty then none else some (stripAdmin raw)

/-- `_is_city`. -/
def isCity (token : String) : Bool :=
  let t := normStr token
  (CANON.map Prod.fst).contains t
    || "tp ".data.isPrefixOf t.data || "tp.".data.isPrefixOf t.data

/-- `(quận|q\.)\s*\d+`. -/
def districtRe1 : RE :=
  reCat [reAlts [lit "quận", lit "q."], ws0, digits1]

/-- `\bdistrict\b\s*\d*`. -/
def districtRe2 : RE :=
  reCat [RE.wb, lit "district", RE.wb, ws0, RE.star (RE.cls pyDigit)]

/-- `\b(huyện|thị xã|phường|xã)\b`. -/
def districtRe3 : RE :=
  reCat [RE.wb, reAlts [lit "huyện", lit "thị xã", lit "phường", lit "xã"], RE.wb]

/-- `_is_district`. -/
def isDistrict (token : String) : Bool :=
  let t := (normStr token).data
  reSearch districtRe1 t || reSearch districtRe2 t || reSearch districtRe3 t

/-- Orientation and canonicalization of one token pair (the loop body of
`split_address_all_pairs`; every branch keeps the pair `{a, b}`, only the
order differs, and the both-cities branch returns `(a, b)` on both sides of
its containment test, faithfully to the source's dead check). -/
def mkPair (a b : String) : Option String × Option String :=
  let aCity := isCity a
  let bCity := isCity b
  let aDist := isDistrict a
  let bDist := isDistrict b
  let cd :=
    if aCity && bDist then (a, b)
    else if aDist && bCity then (b, a)
    else if aCity && bCity then
      if baseName a == baseName b
          || listContains (baseName b).data (baseName a).data
          || listContains (baseName a).data (baseName b).data then (a, b)
      else (a, b)
    else (a, b)
  (canonCity cd.1, canonDistrict cd.2)

/-- `re.split` on a single-character class: split into parts (empties kept,
as in Python; they are discarded by the strip-filter that follows). -/
def splitOn1 (p : Char → Bool) : List Char → List (List Char)
  | [] => [[]]
  | c :: rest =>
    if p c then [] :: splitOn1 p rest
    else
      match splitOn1 p rest with
      | t :: ts => (c :: t) :: ts
      | [] => [[c]]

/-- The separator class `[:,;/\-\|;]`. -/
def sepClass (c : Char) : Bool :=
  c == ':' || c == ',' || c == ';' || c == '/' || c == '-' || c == '|'

/-- `[t.strip() for t in parts if t.strip()]`. -/
def stripTokens (parts : List (List Char)) : List String :=
  parts.filterMap fun t =>
    let u := pyStrip t
    if u.isEmpty then none else some (String.mk u)

/-- The token list of `split_address_all_pairs`: split on the separator
class; if that yields a single token, retry splitting the raw text on commas
alone. -/
def tokensOf (addr : String) : List String :=
  let t1 := stripTokens (splitOn1 sepClass addr.data)
  if t1.length == 1 then stripTokens (splitOn1 (fun c => c == ',') addr.data) else t1

/-- The pairwise loop `for i in range(0, len(tokens) - 1, 2)`: consume tokens
two at a time; a trailing unpaired token is dropped. -/
def pairUp : List String → List (Option String × Option String)
  | [] => []
  | [_] => []
  | a :: b :: rest => mkPair a b :: pairUp rest

/-- `split_address_all_pairs` (non-strings and blank text give `[]`). -/
def splitAllPairs (v : PyVal) : List (Option String × Option String) :=
  match v with
  | .vstr addr =>
    if (pyStrip addr.data).isEmpty then [] else pairUp (tokensOf addr)
  | _ => []

/-- `OrderedDict.fromkeys`: deduplicate keeping first-seen order. -/
def dedupeAux (seen : List String) : List String → List String
  | [] => []
  | x :: xs =>
    if seen.contains x then dedupeAux seen xs else x :: dedupeAux (x :: seen) xs

/-- Stable deduplication. -/
def dedupeKeep (l : List String) : List String := dedupeAux [] l

/-- `", ".join`. -/
def joinComma (l : List String) : String := String.intercalate ", " l

/-- `split_address_joined` as invoked by `transform` (`max_pairs=None`,
`dedupe=True`); the `if c` / `if d` guards are the non-empty tests on the
optional components. -/
def splitJoined (v : PyVal) : Option String × Option String :=
  let pairs := splitAllPairs v
  if pairs.isEmpty then (none, none)
  else
    let cities := dedupeKeep (pairs.filterMap fun p =>
      match p.1 with
      | some c => if c.data.isEmpty then none else some c
      | none => none)
    let dists := dedupeKeep (pairs.filterMap fun p =>
      match p.2 with
      | some d => if d.data.isEmpty then none else some d
      | none => none)
    (if cities.isEmpty then none else some (joinComma cities),
     if dists.isEmpty then none else some (joinComma dists))

/-- `format_pairs`. -/
def formatPairs (v : PyVal) : Option String :=
  let pairs := splitAllPairs v
  if pairs.isEmpty then none
  else some (String.intercalate " và " (pairs.map fun p =>
    joinComma (([p.1, p.2].filterMap id).filter fun x => !x.data.isEmpty)))

example : tokensOf "Hồ Chí Minh: Quận 10" = ["Hồ Chí Minh", "Quận 10"] := by decide
example : splitAllPairs (.vstr "Hồ Chí Minh: Quận 10")
    = [(some "Hồ Chí Minh", some "Quận 10")] := by decide

/-! ## Address lemmas -/

/-- What `dropWhile` exposes first does not satisfy the predicate. -/
theorem dropWhile_head_not (p : Char → Bool) (l : List Char) (c : Char)
    (r : List Char) (h : l.dropWhile p = c :: r) : p c = false := by
  induction l with
  | nil => simp at h
  | cons x xs ih =>
    rw [List.dropWhile_cons] at h
    split at h
    · exact ih h
    · rename_i hx
      cases h
      simpa using hx

/-- A nonempty suffix has the same last element. -/
theorem getLast?_of_suffix {r l : List Char} (h : r <:+ l) (hr : r ≠ []) :
    l.getLast? = r.getLast? := by
  obtain ⟨t, ht⟩ := h
  rw [← ht, List.getLast?_append_of_ne_nil t hr]

/-- The first character of a stripped string is not whitespace. -/
theorem pyStrip_head_not_ws (l : List Char) (c : Char)
    (h : (pyStrip l).head? = some c) : pyWs c = false := by
  unfold pyStrip at h
  rw [List.head?_reverse] at h
  have hne : (l.dropWhile pyWs).reverse.dropWhile pyWs ≠ [] := by
    intro hnil
    rw [hnil] at h
    simp at h
  rw [← getLast?_of_suffix (List.dropWhile_suffix pyWs) hne, List.getLast?_reverse] at h
  cases heq : l.dropWhile pyWs with
  | nil => rw [heq] at h; simp at h
  | cons x xs =>
    rw [heq] at h
    simp only [List.head?_cons, Option.some.injEq] at h
    subst h
    exact dropWhile_head_not pyWs l x xs heq

/-- The last character of a stripped string is not whitespace. -/
theorem pyStrip_getLast_not_ws (l : List Char) (c : Char)
    (h : (pyStrip l).getLast? = some c) : pyWs c = false := by
  unfold pyStrip at h
  rw [List.getLast?_reverse] at h
  cases heq : (l.dropWhile pyWs).reverse.dropWhile pyWs with
  | nil => rw [heq] at h; simp at h
  | cons x xs =>
    rw [heq] at h
    simp only [List.head?_cons, Option.some.injEq] at h
    subst h
    exact dropWhile_head_not pyWs _ x xs heq

/-- `dropWhile` is the identity when the head fails the predicate. -/
theorem dropWhile_eq_self_of_head (p : Char → Bool) (l : List Char)
    (h : ∀ c, l.head? = some c → p c = false) : l.dropWhile p = l := by
  cases l with
  | nil => rfl
  | cons c t =>
    rw [List.dropWhile_cons, h c rfl]
    simp

/-- Stripping is idempotent. -/
theorem pyStrip_idem (l : List Char) : pyStrip (pyStrip l) = pyStrip l := by
  show ((((pyStrip l).dropWhile pyWs).reverse.dropWhile pyWs)).reverse = pyStrip l
  rw [dropWhile_eq_self_of_head pyWs (pyStrip l) (pyStrip_head_not_ws l)]
  rw [dropWhile_eq_self_of_head pyWs (pyStrip l).reverse (fun c hc => by
    rw [List.head?_reverse] at hc
    exact pyStrip_getLast_not_ws l c hc)]
  exact List.reverse_reverse _

/-- A case-insensitive prefix match returns a suffix of its input. -/
theorem matchPfxCIAux_suffix (p l r : List Char)
    (h : matchPfxCIAux p l = some r) : r <:+ l := by
  induction p generalizing l with
  | nil =>
    simp only [matchPfxCIAux, Option.some.injEq] at h
    subst h
    exact List.suffix_rfl
  | cons c cs ih =>
    cases l with
    | nil => simp [matchPfxCIAux] at h
    | cons x xs =>
      simp only [matchPfxCIAux] at h
      split at h
      · exact (ih _ h).trans (List.suffix_cons x xs)
      · simp at h

/-- After a matched admin prefix and its `\s+`, some text remains, because
the (stripped) input does not end in whitespace. -/
theorem adminAfter_ne_nil (alts : List String) (l r : List Char)
    (h : adminAfter alts l = some r)
    (hlast : ∀ c, l.getLast? = some c → pyWs c = false) : r ≠ [] := by
  induction alts with
  | nil => simp [adminAfter] at h
  | cons s ss ih =>
    simp only [adminAfter] at h
    split at h
    · rename_i c rest hm
      split at h
      · rename_i hc
        injection h with h'
        subst h'
        intro hnil
        have hall : ∀ x ∈ c :: rest, pyWs x = true := by
          intro x hx
          rcases List.mem_cons.mp hx with hx | hx
          · subst hx; exact hc
          · exact List.dropWhile_eq_nil_iff.mp hnil x hx
        have hsuff : (c :: rest) <:+ l := matchPfxCIAux_suffix _ _ _ hm
        have hne : (c :: rest) ≠ [] := by simp
        have hlast2 := getLast?_of_suffix hsuff hne
        have hmem := List.getLast_mem hne
        have := hlast _ (hlast2.trans (List.getLast?_eq_getLast _ hne))
        exact absurd (hall _ hmem) (by rw [this]; simp)
      · exact ih h
    · exact ih h
    · exact ih h

/-- `_strip_admin_prefix` never maps a nonempty stripped string to the empty
string: a match needs `\s+` after the prefix word, and a stripped string does
not end in whitespace. -/
theorem stripAdminL_ne_nil (l : List Char) (hl : l ≠ []) (hs : pyStrip l = l) :
    stripAdminL l ≠ [] := by
  simp only [stripAdminL, hs]
  split
  · rename_i rest heq
    exact adminAfter_ne_nil _ _ _ heq (fun c hc => by
      rw [← hs] at hc
      exact pyStrip_getLast_not_ws l c hc)
  · exact hl

/-- Association-list lookup only returns stored pairs. -/
theorem lookup_mem {m : List (String × String)} {k v : String}
    (h : List.lookup k m = some v) : (k, v) ∈ m := by
  induction m with
  | nil => simp [List.lookup] at h
  | cons p rest ih =>
    match p with
    | (k', v') =>
      rw [List.lookup] at h
      split at h
      · rename_i hk
        injection h with h'
        subst h'
        have : k = k' := by simpa using hk
        subst this
        exact List.mem_cons_self _ _
      · exact List.mem_cons_of_mem _ (ih h)

/-- Every canonical name stored in `CANON` is nonempty. -/
theorem CANON_values_ne_nil : ∀ kv ∈ CANON, kv.2.data ≠ [] := by decide

/-- `_canon_city` maps a nonempty stripped token to a nonempty name. -/
theorem canonCity_shape (raw : String) (hne : raw.data ≠ [])
    (hs : pyStrip raw.data = raw.data) :
    ∃ c, canonCity raw = some c ∧ c.data ≠ [] := by
  unfold canonCity
  rw [List.isEmpty_eq_false.mpr hne, if_neg (by simp)]
  split
  · rename_i v hv
    exact ⟨v, rfl, CANON_values_ne_nil _ (lookup_mem hv)⟩
  · split
    · rename_i v hv
      exact ⟨v, rfl, CANON_values_ne_nil _ (lookup_mem hv)⟩
    · refine ⟨_, rfl, ?_⟩
      split
      · rename_i hnp
        show pyStrip raw.data ≠ []
        rw [hs]
        exact hne
      · rename_i hnp
        show (stripAdmin raw).data ≠ []
        exact fun hc => hnp (by simpa using congrArg List.isEmpty hc)

/-- `_canon_district` maps a nonempty stripped token to a nonempty name. -/
theorem canonDistrict_shape (raw : String) (hne : raw.data ≠ [])
    (hs : pyStrip raw.data = raw.data) :
    ∃ d, canonDistrict raw = some d ∧ d.data ≠ [] := by
  unfold canonDistrict
  rw [List.isEmpty_eq_false.mpr hne, if_neg (by simp)]
  exact ⟨_, rfl, stripAdminL_ne_nil raw.data hne hs⟩

/-- Every branch of the pairing logic canonicalizes the two tokens in some
order, so both components are populated and nonempty. -/
theorem mkPair_shape (a b : String)
    (ha : a.data ≠ [] ∧ pyStrip a.data = a.data)
    (hb : b.data ≠ [] ∧ pyStrip b.data = b.data) :
    ∃ c d, mkPair a b = (some c, some d) ∧ c.data ≠ [] ∧ d.data ≠ [] := by
  obtain ⟨ca, hca, hcane⟩ := canonCity_shape a ha.1 ha.2
  obtain ⟨cb, hcb, hcbne⟩ := canonCity_shape b hb.1 hb.2
  obtain ⟨da, hda, hdane⟩ := canonDistrict_shape a ha.1 ha.2
  obtain ⟨db, hdb, hdbne⟩ := canonDistrict_shape b hb.1 hb.2
  simp only [mkPair]
  split
  · exact ⟨ca, db, by simp [hca, hdb], hcane, hdbne⟩
  · split
    · exact ⟨cb, da, by simp [hcb, hda], hcbne, hdane⟩
    · split
      · split
        · exact ⟨ca, db, by simp [hca, hdb], hcane, hdbne⟩
        · exact ⟨ca, db, by simp [hca, hdb], hcane, hdbne⟩
      · exact ⟨ca, db, by simp [hca, hdb], hcane, hdbne⟩

/-- Members of `pairUp l` come from two members of `l`. -/
theorem pairUp_mem (l : List String) (p : Option String × Option String)
    (hp : p ∈ pairUp l) : ∃ a b, p = mkPair a b ∧ a ∈ l ∧ b ∈ l := by
  induction l using pairUp.induct with
  | case1 => simp [pairUp] at hp
  | case2 x => simp [pairUp] at hp
  | case3 a b rest ih =>
    rw [pairUp] at hp
    rcases List.mem_cons.mp hp with hp | hp
    · exact ⟨a, b, hp, List.mem_cons_self _ _, List.mem_cons_of_mem _ (List.mem_cons_self _ _)⟩
    · obtain ⟨x, y, hxy, hx, hy⟩ := ih hp
      exact ⟨x, y, hxy, List.mem_cons_of_mem _ (List.mem_cons_of_mem _ hx),
        List.mem_cons_of_mem _ (List.mem_cons_of_mem _ hy)⟩

/-- Tokens produced by the strip-filter are nonempty and stripped. -/
theorem stripTokens_good (parts : List (List Char)) (t : String)
    (ht : t ∈ stripTokens parts) : t.data ≠ [] ∧ pyStrip t.data = t.data := by
  obtain ⟨raw, _, hf⟩ := List.mem_filterMap.mp ht
  dsimp only at hf
  split at hf
  · simp at hf
  · rename_i hne
    injection hf with hf'
    subst hf'
    refine ⟨fun hc => hne (by simpa using congrArg List.isEmpty hc), ?_⟩
    show pyStrip (pyStrip raw) = pyStrip raw
    exact pyStrip_idem raw

/-- Every token of `split_address_all_pairs` is nonempty and stripped. -/
theorem tokensOf_good (s : String) (t : String) (ht : t ∈ tokensOf s) :
    t.data ≠ [] ∧ pyStrip t.data = t.data := by
  simp only [tokensOf] at ht
  split at ht
  · exact stripTokens_good _ _ ht
  · exact stripTokens_good _ _ ht

/-- C10: every pair emitted by `split_address_all_pairs` has both components
present (non-`None`) and nonempty, for every input value. -/
theorem c10_pair_components_nonempty (v : PyVal) (p : Option String × Option String)
    (hp : p ∈ splitAllPairs v) :
    ∃ c d, p = (some c, some d) ∧ c.data ≠ [] ∧ d.data ≠ [] := by
  match v with
  | .vnone => simp [splitAllPairs] at hp
  | .vnum _ => simp [splitAllPairs] at hp
  | .vstr s =>
    simp only [splitAllPairs] at hp
    split at hp
    · simp at hp
    · obtain ⟨a, b, hab, hai, hbi⟩ := pairUp_mem _ _ hp
      obtain ⟨c, d, hcd, hc, hd⟩ :=
        mkPair_shape a b (tokensOf_good s a hai) (tokensOf_good s b hbi)
      exact ⟨c, d, hab.trans hcd, hc, hd⟩

/-- Witness for C10 on the concrete address `"Hồ Chí Minh: Quận 10"`. -/
theorem c10_pair_components_nonempty_witness :
    ∃ c d, ((some "Hồ Chí Minh", some "Quận 10") : Option String × Option String)
        = (some c, some d) ∧ c.data ≠ [] ∧ d.data ≠ [] :=
  c10_pair_components_nonempty (.vstr "Hồ Chí Minh: Quận 10")
    (some "Hồ Chí Minh", some "Quận 10") (by decide)

/-- The pairwise loop yields `⌊n/2⌋` pairs. -/
theorem pairUp_length (l : List String) : (pairUp l).length = l.length / 2 := by
  induction l using pairUp.induct with
  | case1 => rfl
  | case2 x => simp [pairUp]
  | case3 a b rest ih =>
    show (pairUp rest).length + 1 = (rest.length + 1 + 1) / 2
    rw [ih]
    omega

/-- The `k`-th pair is built from tokens `2k` and `2k+1`; a trailing token
with no partner yields nothing. -/
theorem pairUp_get (l : List String) (k : Nat) :
    (pairUp l).get? k =
      match l.get? (2 * k), l.get? (2 * k + 1) with
      | some a, some b => some (mkPair a b)
      | _, _ => none := by
  induction l using pairUp.induct generalizing k with
  | case1 => simp [pairUp]
  | case2 x => cases k <;> simp [pairUp]
  | case3 a b rest ih =>
    cases k with
    | zero => simp [pairUp]
    | succ k' =>
      have h2 : 2 * (k' + 1) = 2 * k' + 1 + 1 := by ring
      have h3 : 2 * (k' + 1) + 1 = 2 * k' + 1 + 1 + 1 := by ring
      rw [pairUp, List.get?_cons_succ, h3, h2, List.get?_cons_succ,
        List.get?_cons_succ, List.get?_cons_succ, List.get?_cons_succ]
      exact ih k'

/-- C6: `split_address_all_pairs` consumes the token list pairwise at indices
(0,1), (2,3), ...: exactly `⌊n/2⌋` pairs for `n` tokens, a trailing unpaired
token dropped; blank or non-string input yields the empty list. -/
theorem c6_pairwise_consumption :
    (∀ s : String, (pyStrip s.data).isEmpty = false →
      (splitAllPairs (.vstr s)).length = (tokensOf s).length / 2 ∧
      ∀ k : Nat, (splitAllPairs (.vstr s)).get? k =
        match (tokensOf s).get? (2 * k), (tokensOf s).get? (2 * k + 1) with
        | some a, some b => some (mkPair a b)
        | _, _ => none) ∧
    (∀ s : String, (pyStrip s.data).isEmpty = true → splitAllPairs (.vstr s) = []) ∧
    (∀ v : PyVal, (∀ s, v ≠ .vstr s) → splitAllPairs v = []) := by
  refine ⟨?_, ?_, ?_⟩
  · intro s hs
    have heq : splitAllPairs (.vstr s) = pairUp (tokensOf s) := by
      simp [splitAllPairs, hs]
    rw [heq]
    exact ⟨pairUp_length _, pairUp_get _⟩
  · intro s hs
    simp [splitAllPairs, hs]
  · intro v hv
    match v with
    | .vstr s => exact absurd rfl (hv s)
    | .vnone => rfl
    | .vnum _ => rfl

/-- Witness for C6 on `"Hà Nội: Cầu Giấy; Đà Nẵng"` (3 tokens, 1 pair: the
trailing token is dropped). -/
theorem c6_pairwise_consumption_witness :
    (splitAllPairs (.vstr "Hà Nội: Cầu Giấy; Đà Nẵng")).length
      = (tokensOf "Hà Nội: Cầu Giấy; Đà Nẵng").length / 2 ∧
    (tokensOf "Hà Nội: Cầu Giấy; Đà Nẵng").length = 3 ∧
    (splitAllPairs (.vstr "Hà Nội: Cầu Giấy; Đà Nẵng")).length = 1 :=
  ⟨(c6_pairwise_consumption.1 "Hà Nội: Cầu Giấy; Đà Nẵng" (by decide)).1,
    by decide, by decide⟩

/-- C7: the address `"Hồ Chí Minh: Quận 10"` yields exactly one pair; its
city is `"Hồ Chí Minh"` (one of the two admissible forms) and its district
contains the substring `"Quận 10"`. -/
theorem c7_hcm_district10 :
    splitAllPairs (.vstr "Hồ Chí Minh: Quận 10")
      = [(some "Hồ Chí Minh", some "Quận 10")] ∧
    ("Hồ Chí Minh" = "TP. Hồ Chí Minh" ∨ "Hồ Chí Minh" = "Hồ Chí Minh") ∧
    listContains "Quận 10".data "Quận 10".data = true := by
  refine ⟨by decide, Or.inr rfl, by decide⟩

/-! ## Job title classification (`_strip_accents`, `_norm_job_text`,
`SENIORITY_PATTERNS`, `_job_seniority`, `GROUP_RULES`, `_job_group`,
`collapse_map`) -/

/-- NFD decomposition followed by dropping combining marks, as a character
map over the Vietnamese alphabet (`unicodedata` in the source; `đ`/`Đ` have
no decomposition and are kept, as in NFD). -/
def viStripChar (c : Char) : Char :=
  if "àáảãạăằắẳẵặâầấẩẫậ".data.contains c then 'a'
  else if "ÀÁẢÃẠĂẰẮẲẴẶÂẦẤẨẪẬ".data.contains c then 'A'
  else if "èéẻẽẹêềếểễệ".data.contains c then 'e'
  else if "ÈÉẺẼẸÊỀẾỂỄỆ".data.contains c then 'E'
  else if "ìíỉĩị".data.contains c then 'i'
  else if "ÌÍỈĨỊ".data.contains c then 'I'
  else if "òóỏõọôồốổỗộơờớởỡợ".data.contains c then 'o'
  else if "ÒÓỎÕỌÔỒỐỔỖỘƠỜỚỞỠỢ".data.contains c then 'O'
  else if "ùúủũụưừứửữự".data.contains c then 'u'
  else if "ÙÚỦŨỤƯỪỨỬỮỰ".data.contains c then 'U'
  else if "ỳýỷỹỵ".data.contains c then 'y'
  else if "ỲÝỶỸỴ".data.contains c then 'Y'
  else c

/-- `_strip_accents`. -/
def stripAccents (l : List Char) : List Char := l.map viStripChar

/-- `str.replace` (all occurrences, left to right, non-overlapping); the fuel
is the input length, which bounds the number of steps. -/
def replAux (needle repl : List Char) : Nat → List Char → List Char
  | 0, hay => hay
  | _ + 1, [] => []
  | f + 1, c :: t =>
    if needle.isPrefixOf (c :: t) then
      repl ++ replAux needle repl f ((c :: t).drop needle.length)
    else c :: replAux needle repl f t

/-- `str.replace` entry point. -/
def replaceAll (needle repl hay : List Char) : List Char :=
  replAux needle repl hay.length hay

/-- The character class kept by the punctuation blanking of
`_norm_job_text` (word characters, whitespace, plus, dot, hash, slash,
hyphen); everything else becomes a space. -/
def keepClass (c : Char) : Bool :=
  pyWord c || pyWs c || c == '+' || c == '.' || c == '#' || c == '/' || c == '-'

/-- The chained tech-token replacements of `_norm_job_text`. -/
def techReplace (l : List Char) : List Char :=
  replaceAll ".net".data "dotnet".data
    (replaceAll "c#".data "csharp".data
      (replaceAll "c++".data "cpp".data
        (replaceAll "c/c++".data "cpp".data
          (replaceAll "nuxt.js".data "nuxtjs".data
            (replaceAll "next.js".data "nextjs".data
              (replaceAll "node.js".data "nodejs".data l))))))

/-- `_norm_job_text`: strip accents, lowercase+strip, unify tech tokens,
blank disallowed characters, turn `-_/` into spaces, collapse and strip. -/
def normJobText (title : String) : List Char :=
  let s1 := pyStrip ((stripAccents title.data).map pyLowerChar)
  let s2 := techReplace s1
  let s3 := s2.map fun c => if keepClass c then c else ' '
  let s4 := s3.map fun c => if c == '-' || c == '_' || c == '/' then ' ' else c
  pyStrip (collapseWs s4)

example : normJobText "Senior C++ Developer (Hà Nội)" = "senior cpp developer ha noi".data := by
  decide
example : normJobText "Node.js/React Engineer" = "nodejs react engineer".data := by decide

/-- `\b` + sequence + `\b`, the common shape of the rule patterns. -/
def wseq (l : List RE) : RE := RE.cat RE.wb (reCat (l ++ [RE.wb]))

/-- `GROUP_RULES`: the ordered fine-category table, most specific first,
ending with the general catch-all. -/
def GROUP_RULES : List (String × List RE) := [
  ("fullstack_engineer", [
    wseq [lit "full", ws0, lit "stack"], wpat "fullstack", wpat "mern",
    wpat "mean", wpat "mevn"]),
  ("backend_engineer", [
    wpat "backend", wseq [lit "back", ws0, lit "end"], wpat "be",
    wseq [lit "server", ws0, lit "side"],
    wseq [lit "api ", reAlts [lit "dev", lit "engineer", lit "developer"]],
    wpat "java", wpat "spring", wpat "dotnet", wpat "csharp",
    wpat "python", wpat "django", wpat "flask", wpat "fastapi",
    wpat "nodejs", wpat "express", wpat "nestjs",
    wpat "go", wpat "golang", wpat "rust", wpat "scala",
    wpat "php", wpat "laravel", wpat "symfony",
    wpat "ruby", wpat "rails"]),
  ("frontend_engineer", [
    wpat "frontend", wseq [lit "front", ws0, lit "end"], wpat "web developer",
    wpat "react", wpat "nextjs", wpat "angular", wpat "angularjs",
    wpat "vue", wpat "nuxtjs", wpat "svelte",
    wpat "javascript", wpat "typescript", wpat "html", wpat "css"]),
  ("mobile_engineer", [
    wpat "mobile", wpat "android", wpat "ios", wpat "flutter",
    wpat "react native", wpat "xamarin", wpat "swift", wpat "kotlin"]),
  ("data_engineer", [
    wpat "data engineer", wpat "etl", wpat "pipeline",
    wseq [lit "ingest", RE.opt (lit "ion")],
    wpat "airflow", wpat "spark", wpat "hadoop", wpat "databricks",
    wpat "snowflake", wpat "redshift", wseq [lit "big", ws0, lit "data"],
    wpat "glue", wpat "dwh", wpat "analytics engineer", wpat "dbt"]),
  ("data_science_ml_ai", [
    wpat "data scientist", wpat "ml engineer", wpat "machine learning",
    wpat "deep learning", wpat "ai engineer", wpat "nlp", wpat "computer vision",
    wpat "research scientist", wpat "research engineer"]),
  ("data_analyst_bi", [
    wpat "data analyst", wpat "bi", wpat "bi analyst", wpat "power bi",
    wpat "tableau", wpat "looker", wpat "dax",
    wseq [lit "report", RE.opt (lit "ing")],
    wpat "business intelligence", wpat "analytics",
    wpat "business analyst"]),
  ("mlops_dataops", [
    wpat "mlops", wpat "dataops", wpat "feature store", wpat "model serving",
    wpat "model ops"]),
  ("devops_sre_cloud", [
    wpat "devops", wpat "sre", wpat "platform engineer", wpat "cloud engineer",
    wpat "kubernetes", wpat "k8s", wpat "docker", wpat "terraform", wpat "helm",
    wseq [lit "ci", RE.opt (RE.chr '/'), lit "cd"],
    wpat "gcp", wpat "aws", wpat "azure",
    wseq [RE.opt (RE.cat (lit "it") ws0), lit "infra", RE.opt (lit "structure")],
    wpat "infrastructure",
    wseq [lit "platform", RE.opt (reAlts [lit " engineer", lit " team", lit " ops"])]]),
  ("qa_testing", [
    wpat "qa", wpat "quality assurance", wpat "tester", wpat "testing",
    wpat "automation tester", wpat "manual tester", wpat "sdet",
    wpat "quality engineer"]),
  ("security", [
    wpat "security", wpat "infosec", wpat "secops", wpat "soc",
    wseq [lit "pentest", RE.opt (lit "er")],
    wpat "appsec", wpat "iam", wpat "security engineer"]),
  ("database_admin", [
    wpat "dba", wpat "database administrator", wpat "postgres", wpat "mysql",
    wpat "sql server", wpat "oracle", wpat "mongodb", wpat "redis"]),
  ("network_engineer", [
    wpat "network", wpat "network engineer",
    wseq [lit "network admin", RE.opt (lit "istrator")], wpat "cisco"]),
  ("sysadmin_it_support", [
    wpat "sysadmin", wpat "system administrator", wpat "it admin",
    wpat "it support",
    wseq [lit "help", RE.opt (RE.chr ' '), lit "desk"],
    wpat "desktop support", wpat "noc",
    wpat "application support", wpat "it application support"]),
  ("architect", [
    wpat "software architect",
    wseq [lit "solution", RE.opt (RE.chr 's'), lit " architect"],
    wpat "enterprise architect"]),
  ("product_manager", [
    wpat "product manager", wpat "pm", wpat "product owner", wpat "po"]),
  ("project_delivery", [
    wpat "project manager", wpat "scrum master", wpat "agile coach"]),
  ("design_ui_ux", [
    wpat "ui/ux", wpat "ui", wpat "ux", wpat "product designer",
    wpat "ux researcher",
    wseq [lit "graphic ", reAlts [lit "designer", lit "design"]]]),
  ("game_dev", [
    wpat "game developer", wpat "unity", wpat "unreal", wpat "game programmer",
    wpat "game designer"]),
  ("embedded_firmware_iot", [
    wpat "embedded", wpat "firmware", wpat "iot", wpat "rtos",
    wpat "microcontroller"]),
  ("blockchain_web3", [
    wpat "blockchain", wpat "web3", wpat "solidity", wpat "smart contract",
    wpat "defi"]),
  ("erp_crm", [
    wpat "erp", wpat "sap", wpat "odoo", wpat "dynamics", wpat "salesforce",
    wpat "crm"]),
  ("rpa_engineer", [
    wpat "rpa", wpat "uipath", wpat "blue prism", wpat "automation anywhere"]),
  ("devrel", [
    wpat "developer relations", wpat "devrel", wpat "developer advocate",
    wpat "evangelist"]),
  ("solutions_sales_engineer", [
    wseq [lit "solution", RE.opt (RE.chr 's'), lit " engineer"],
    wseq [lit "pre", RE.cls (fun c => c == '-' || c == ' '), lit "sales"],
    wpat "solution consultant"]),
  ("technical_writer", [
    wpat "technical writer", wpat "documentation"]),
  ("software_engineer_general", [
    wpat "software engineer", wpat "software developer", wpat "developer",
    wpat "programmer",
    wpat "swe", wpat "sde", wpat "engineer",
    wpat "lap trinh vien", wpat "lap trinh",
    wpat "ky su phan mem", wpat "chuyen vien lap trinh"])]

/-- Does any pattern of a rule's set match the text? -/
def anyRule (ps : List RE) (txt : List Char) : Bool := ps.any fun p => reSearch p txt

/-- The scan of `_job_group` over the (pre-compiled) rules: first category
with a matching pattern wins, else `other_it`. -/
def findGrp : List (String × List RE) → List Char → String
  | [], _ => "other_it"
  | (g, ps) :: rest, txt => if anyRule ps txt then g else findGrp rest txt

/-- `_job_group`. -/
def jobGroup (title : String) : String := findGrp GROUP_RULES (normJobText title)

/-- `collapse_map`. -/
def collapseMap : List (String × String) := [
  ("software_engineer_general", "software_engineering"),
  ("backend_engineer", "software_engineering"),
  ("frontend_engineer", "software_engineering"),
  ("fullstack_engineer", "software_engineering"),
  ("mobile_engineer", "software_engineering"),
  ("game_dev", "software_engineering"),
  ("embedded_firmware_iot", "software_engineering"),
  ("blockchain_web3", "software_engineering"),
  ("erp_crm", "software_engineering"),
  ("rpa_engineer", "software_engineering"),
  ("architect", "software_engineering"),
  ("data_engineer", "data"),
  ("data_analyst_bi", "data"),
  ("data_science_ml_ai", "data"),
  ("mlops_dataops", "data"),
  ("devops_sre_cloud", "infra_cloud"),
  ("qa_testing", "qa_testing"),
  ("security", "security"),
  ("sysadmin_it_support", "it_ops_support"),
  ("database_admin", "it_ops_support"),
  ("network_engineer", "it_ops_support"),
  ("product_manager", "product_project"),
  ("project_delivery", "product_project"),
  ("design_ui_ux", "design"),
  ("devrel", "other"),
  ("solutions_sales_engineer", "other"),
  ("technical_writer", "other"),
  ("other_it", "other")]

/-- The 8 coarse buckets plus the residual `other`. -/
def bigBuckets : List String := [
  "software_engineering", "data", "infra_cloud", "qa_testing", "security",
  "it_ops_support", "product_project", "design", "other"]

/-- The fine categories the classifier can return (rule-table keys). -/
def groupKeys : List String := GROUP_RULES.map Prod.fst

example : jobGroup "Python Backend Engineer" = "backend_engineer" := by decide
example : jobGroup "IT Infra Lead" = "devops_sre_cloud" := by decide
example : jobGroup "Nhân viên kinh doanh" = "other_it" := by decide

/-- First-match characterization of the rule scan, for any rule list. -/
theorem findGrp_spec (rules : List (String × List RE)) (txt : List Char) :
    (∃ i g ps, rules.get? i = some (g, ps) ∧ anyRule ps txt = true ∧
        findGrp rules txt = g ∧
        ∀ j, j < i → ∀ g' ps', rules.get? j = some (g', ps') →
          anyRule ps' txt = false) ∨
    (findGrp rules txt = "other_it" ∧ ∀ gp ∈ rules, anyRule gp.2 txt = false) := by
  induction rules with
  | nil => exact Or.inr ⟨rfl, by simp⟩
  | cons hd rest ih =>
    match hd with
    | (g, ps) =>
      by_cases hm : anyRule ps txt = true
      · left
        exact ⟨0, g, ps, rfl, hm, by simp [findGrp, hm],
          fun j hj => absurd hj (Nat.not_lt_zero j)⟩
      · have hfind : findGrp ((g, ps) :: rest) txt = findGrp rest txt := by
          simp [findGrp, hm]
        rcases ih with ⟨i, g', ps', hget, hany, hf, hprev⟩ | ⟨hf, hall⟩
        · left
          refine ⟨i + 1, g', ps', by simpa using hget, hany, hfind.trans hf, ?_⟩
          intro j hj g'' ps'' hget'
          cases j with
          | zero =>
            simp only [List.get?_cons_zero, Option.some.injEq, Prod.mk.injEq] at hget'
            rw [← hget'.2]
            exact Bool.not_eq_true _ ▸ hm
          | succ j' =>
            exact hprev j' (Nat.lt_of_succ_lt_succ hj) g'' ps'' (by simpa using hget')
        · right
          refine ⟨hfind.trans hf, ?_⟩
          intro gp hgp
          rcases List.mem_cons.mp hgp with h | h
          · rw [h]
            exact Bool.not_eq_true _ ▸ hm
          · exact hall gp h

/-- C4: `_job_group` returns the first category, in the fixed ordered rule
list, any of whose patterns matches the normalized title; if no category's
pattern matches, it returns `"other_it"`. -/
theorem c4_first_matching_category (title : String) :
    (∃ i g ps, GROUP_RULES.get? i = some (g, ps) ∧
        anyRule ps (normJobText title) = true ∧ jobGroup title = g ∧
        ∀ j, j < i → ∀ g' ps', GROUP_RULES.get? j = some (g', ps') →
          anyRule ps' (normJobText title) = false) ∨
    (jobGroup title = "other_it" ∧
      ∀ gp ∈ GROUP_RULES, anyRule gp.2 (normJobText title) = false) :=
  findGrp_spec GROUP_RULES (normJobText title)

/-- C5: the collapse lookup is defined on every fine category the classifier
can return (every rule-table key plus `"other_it"`), maps it to one of the
8 coarse buckets or the residual `"other"`, and its keys are unique, so the
result is exactly one bucket. -/
theorem c5_collapse_total :
    ((groupKeys ++ ["other_it"]).all fun g =>
        match List.lookup g collapseMap with
        | some b => bigBuckets.contains b
        | none => false) = true ∧
    (collapseMap.map Prod.fst).Nodup := by
  exact ⟨by decide, by decide⟩

/-- `SENIORITY_PATTERNS`: ordered seniority levels. -/
def SENIORITY_PATTERNS : List (String × List RE) := [
  ("intern", [wpat "intern", wpat "thuc tap", wpat "thuc tap sinh"]),
  ("fresher", [wpat "fresher"]),
  ("junior", [wpat "junior", wpat "jr"]),
  ("mid", [wpat "mid", wpat "middle", wpat "mid level"]),
  ("senior", [wpat "senior", wpat "sr"]),
  ("lead", [wpat "lead", wpat "tech lead", wpat "leader"]),
  ("principal", [wpat "principal"]),
  ("manager", [wpat "manager", wpat "engineering manager", wpat "quan ly"]),
  ("director", [wpat "director"]),
  ("head", [wpat "head", wpat "head of"]),
  ("vp", [wpat "vice president", wpat "vp"]),
  ("cto", [wpat "cto", wpat "chief technology officer"])]

/-- The scan of `_job_seniority`: first level with a match, else `unknown`. -/
def findSen : List (String × List RE) → List Char → String
  | [], _ => "unknown"
  | (lvl, ps) :: rest, txt => if anyRule ps txt then lvl else findSen rest txt

/-- `_job_seniority`. -/
def jobSeniority (title : String) : String :=
  findSen SENIORITY_PATTERNS (normJobText title)

example : jobSeniority "Senior Backend Engineer" = "senior" := by decide
example : jobSeniority "Engineering Manager" = "manager" := by decide

/-! ## Schema validation and the row transform (`_validate_schema`,
`transform`).  Quarantine file writing and logging are I/O collaborators
outside the core (the spec scopes them out); the `raise` paths are the
`Except` errors. -/

/-- A record batch: column names plus rows of column-to-value cells. -/
structure DataFrame where
  cols : List String
  rows : List (List (String × PyVal))

/-- `REQUIRED_COLUMNS` from config. -/
def REQUIRED_COLUMNS : List String := ["job_title", "address", "salary"]

/-- The error conditions `transform` can raise. -/
inductive ETLError where
  | schema (missing : List String)
  | rowError

/-- `_validate_schema`, parameterized by the `STRICT_SCHEMA` setting. -/
def validateSchema (strictSchema : Bool) (df : DataFrame) : Except ETLError Unit :=
  if strictSchema then
    let missing := REQUIRED_COLUMNS.filter fun c => !df.cols.contains c
    if missing.isEmpty then .ok () else .error (.schema missing)
  else .ok ()

/-- Cell access (`row[col]`; a well-formed frame has every column). -/
def cell (r : List (String × PyVal)) (c : String) : PyVal :=
  (List.lookup c r).getD .vnone

/-- Store an optional decimal back into a cell. -/
def optVal : Option Dec → PyVal
  | some d => .vnum d
  | none => .vnone

/-- Store an optional string back into a cell. -/
def optStr : Option String → PyVal
  | some s => .vstr s
  | none => .vnone

/-- Python `str()` on cell values, as used by `_norm_job_text`'s `str(s)`:
identity on strings, `"None"` for `None`; a numeric cell in the title column
is a missing-value `NaN` from the CSV reader, rendered `"nan"`. -/
def pyStr : PyVal → String
  | .vstr s => s
  | .vnone => "None"
  | .vnum _ => "nan"

/-- The salary block of `transform`: derive the four salary columns; a
raising `parse_salary` (never happens, see `parseSalary_total`) would abort
the whole chunk. -/
def enrichSalary (df : DataFrame) : Except ETLError DataFrame :=
  if df.cols.contains "salary" then do
    let rows ← df.rows.mapM fun r =>
      match parseSalary (cell r "salary") with
      | .ok (mn, mx, unit, note) =>
        Except.ok (r ++ [("min_salary", optVal mn), ("max_salary", optVal mx),
          ("salary_unit", PyVal.vstr unit), ("salary_note", PyVal.vstr note)])
      | .error _ => Except.error ETLError.rowError
    .ok ⟨df.cols ++ ["min_salary", "max_salary", "salary_unit", "salary_note"], rows⟩
  else .ok df

/-- The address block of `transform`: city/district join and formatted
pairs. -/
def enrichAddress (df : DataFrame) : Except ETLError DataFrame :=
  if df.cols.contains "address" then
    .ok ⟨df.cols ++ ["city", "district", "city_district_pairs_str"],
      df.rows.map fun r =>
        let p := splitJoined (cell r "address")
        r ++ [("city", optStr p.1), ("district", optStr p.2),
          ("city_district_pairs_str", optStr (formatPairs (cell r "address")))]⟩
  else .ok df

/-- The job-title block of `transform`: fine group, seniority, and the
collapsed bucket (`.map(collapse_map).fillna("other")`). -/
def enrichJob (df : DataFrame) : Except ETLError DataFrame :=
  if df.cols.contains "job_title" then
    .ok ⟨df.cols ++ ["job_title_group", "job_seniority", "job_title_group_big"],
      df.rows.map fun r =>
        let fine := jobGroup (pyStr (cell r "job_title"))
        r ++ [("job_title_group", PyVal.vstr fine),
          ("job_seniority", PyVal.vstr (jobSeniority (pyStr (cell r "job_title")))),
          ("job_title_group_big", PyVal.vstr ((List.lookup fine collapseMap).getD "other"))]⟩
  else .ok df

/-- `transform`: schema validation first (its `raise` is outside the
`try`), then the three per-record enrichment blocks; the final
`pd.to_numeric(errors="coerce")` is the identity here because the derived
min/max cells are already numeric or missing. -/
def transform (strictSchema : Bool) (df : DataFrame) : Except ETLError DataFrame := do
  let () ← validateSchema strictSchema df
  let d1 ← enrichSalary df
  let d2 ← enrichAddress d1
  let d3 ← enrichJob d2
  .ok d3

/-- C8: in strict-schema mode, a batch missing a required column makes
`transform` raise the schema error — raised by the validation step that runs
before any per-record enrichment — and produce no output (partial or
otherwise) for the batch. -/
theorem c8_strict_schema_raises (df : DataFrame) (c : String)
    (hc : c ∈ REQUIRED_COLUMNS) (hmiss : df.cols.contains c = false) :
    ∃ missing, transform true df = .error (.schema missing) ∧ c ∈ missing := by
  have hcm : c ∈ REQUIRED_COLUMNS.filter (fun c => !df.cols.contains c) :=
    List.mem_filter.mpr ⟨hc, by rw [hmiss]; rfl⟩
  have hne : (REQUIRED_COLUMNS.filter fun c => !df.cols.contains c).isEmpty = false :=
    List.isEmpty_eq_false.mpr (List.ne_nil_of_mem hcm)
  refine ⟨REQUIRED_COLUMNS.filter fun c => !df.cols.contains c, ?_, hcm⟩
  have hval : validateSchema true df
      = .error (.schema (REQUIRED_COLUMNS.filter fun c => !df.cols.contains c)) := by
    simp only [validateSchema, hne, Bool.false_eq_true, if_false, if_true]
  simp [transform, hval, Bind.bind, Except.bind]

/-- Witness for C8: a two-column batch missing `salary`. -/
theorem c8_strict_schema_raises_witness :
    ∃ missing, transform true ⟨["job_title", "address"], []⟩
        = .error (.schema missing) ∧ "salary" ∈ missing :=
  c8_strict_schema_raises ⟨["job_title", "address"], []⟩ "salary"
    (by decide) (by decide)
